import Mathlib

/-!
Shallow embedding of the PipeCenter backend's data-consistency layer:
`backend/lib/models.py` (pydantic record validation), `backend/lib/storage.py`
(blob-backed collection store with 30-day quotation retention),
`backend/lib/auth.py` (token verification), the per-route handlers under
`backend/api/` (create / update / login), and the divergent consolidated
handler in `backend/app.py`.

Modelling conventions:
- Python floats are modelled as `Rat` (the claims only involve order
  comparisons, where the embedding is exact for non-NaN values).
- A JSON value stored in a blob is modelled at the parsed level: a blob is
  absent (`none`), not a JSON array (`Blob.notArr`, which also stands for
  unparseable content - both return an empty collection without a rewrite),
  or an array of elements; an element is either an object with the fields
  relevant to the record type (`Elem.obj`), each field optional, or
  `Elem.bad`, standing for any element whose processing raises before
  validation (a non-object, a type-mismatched `createdAt`, ...).
- pydantic construction `Model(**data)` is embedded as a parse function
  returning `Option`: `none` is the raised `ValueError`/validation error.
-/

namespace PipeCenter

/-- 30 days in milliseconds, as in `storage.py`:
`30 * 24 * 60 * 60 * 1000`. -/
def thirtyDaysMs : Int := 30 * 24 * 60 * 60 * 1000

/-- One day in milliseconds (used to build concrete retention scenarios). -/
def dayMs : Int := 24 * 60 * 60 * 1000

/-! ## Validated records (`backend/lib/models.py`) -/

/-- `models.QuotationItem` after successful pydantic validation. -/
structure QuotationItem where
  sno : Int
  itemName : String
  rate : Rat
  quantity : Rat
  unit : String
  amount : Rat
  deriving Repr, DecidableEq

/-- `models.Quotation` after successful pydantic validation; `date` is
always populated (the `set_date` validator defaults it). -/
structure Quotation where
  id : String
  buyerName : String
  buyerAddress : String
  items : List QuotationItem
  subtotal : Rat
  gst : Rat
  transportCharges : Rat
  total : Rat
  createdAt : Int
  date : String
  deriving Repr, DecidableEq

/-- `models.Configuration` after successful pydantic validation. -/
structure Configuration where
  id : String
  name : String
  firstDiscount : Rat
  secondDiscount : Rat
  margin : Rat
  createdAt : Int
  deriving Repr, DecidableEq

/-! ## Raw JSON objects and pydantic parsing -/

/-- A JSON object in an item position: each field of `QuotationItem`,
present or absent. -/
structure RawItem where
  sno : Option Int := none
  itemName : Option String := none
  rate : Option Rat := none
  quantity : Option Rat := none
  unit : Option String := none
  amount : Option Rat := none
  deriving Repr, DecidableEq

/-- A JSON object in a quotation position: each field of `Quotation`,
present or absent (`date = none` covers both a missing and a null date,
which pydantic's `pre`/`always` validator treats alike). -/
structure RawQuotation where
  id : Option String := none
  buyerName : Option String := none
  buyerAddress : Option String := none
  items : Option (List RawItem) := none
  subtotal : Option Rat := none
  gst : Option Rat := none
  transportCharges : Option Rat := none
  total : Option Rat := none
  createdAt : Option Int := none
  date : Option String := none
  deriving Repr, DecidableEq

/-- A JSON object in a configuration position. -/
structure RawConfiguration where
  id : Option String := none
  name : Option String := none
  firstDiscount : Option Rat := none
  secondDiscount : Option Rat := none
  margin : Option Rat := none
  createdAt : Option Int := none
  deriving Repr, DecidableEq

/-- `QuotationItem(**data)`: requires every field, and the
`validate_positive_numbers` validator rejects `rate`, `quantity` or
`amount` `< 0`. -/
def parseItem (r : RawItem) : Option QuotationItem :=
  match r.sno, r.itemName, r.rate, r.quantity, r.unit, r.amount with
  | some sno, some itemName, some rate, some quantity, some unit, some amount =>
    if rate < 0 ∨ quantity < 0 ∨ amount < 0 then none
    else some ⟨sno, itemName, rate, quantity, unit, amount⟩
  | _, _, _, _, _, _ => none

/-- pydantic validation of the `items: List[QuotationItem]` field: every
element must validate, otherwise the whole quotation fails. -/
def parseItems : List RawItem → Option (List QuotationItem)
  | [] => some []
  | r :: rest =>
    match parseItem r, parseItems rest with
    | some it, some its => some (it :: its)
    | _, _ => none

/-- `Quotation(**data)`: requires every field except `date` (defaulted to
the current date string by `set_date`), validates each item, and the
`validate_positive_amounts` validator rejects `subtotal`, `gst`,
`transportCharges` or `total` `< 0`. `today` is the
`datetime.now().strftime` result. -/
def parseQuotation (today : String) (r : RawQuotation) : Option Quotation :=
  match r.id, r.buyerName, r.buyerAddress, r.items, r.subtotal, r.gst,
      r.transportCharges, r.total, r.createdAt with
  | some id, some buyerName, some buyerAddress, some items, some subtotal,
      some gst, some transportCharges, some total, some createdAt =>
    match parseItems items with
    | some its =>
      if subtotal < 0 ∨ gst < 0 ∨ transportCharges < 0 ∨ total < 0 then none
      else some ⟨id, buyerName, buyerAddress, its, subtotal, gst,
        transportCharges, total, createdAt, r.date.getD today⟩
    | none => none
  | _, _, _, _, _, _, _, _, _ => none

/-- `Configuration(**data)`: requires every field, and the
`validate_percentages` validator rejects `firstDiscount`, `secondDiscount`
or `margin` outside `[0, 100]` (`v < 0 or v > 100`). -/
def parseConfiguration (r : RawConfiguration) : Option Configuration :=
  match r.id, r.name, r.firstDiscount, r.secondDiscount, r.margin, r.createdAt with
  | some id, some name, some fd, some sd, some m, some createdAt =>
    if fd < 0 ∨ fd > 100 then none
    else if sd < 0 ∨ sd > 100 then none
    else if m < 0 ∨ m > 100 then none
    else some ⟨id, name, fd, sd, m, createdAt⟩
  | _, _, _, _, _, _ => none

/-- `.dict()` serialization of a validated item. -/
def itemToRaw (it : QuotationItem) : RawItem :=
  ⟨some it.sno, some it.itemName, some it.rate, some it.quantity,
    some it.unit, some it.amount⟩

/-- `.dict()` serialization of a validated quotation. -/
def quotToRaw (q : Quotation) : RawQuotation :=
  ⟨some q.id, some q.buyerName, some q.buyerAddress,
    some (q.items.map itemToRaw), some q.subtotal, some q.gst,
    some q.transportCharges, some q.total, some q.createdAt, some q.date⟩

/-- `.dict()` serialization of a validated configuration. -/
def confToRaw (c : Configuration) : RawConfiguration :=
  ⟨some c.id, some c.name, some c.firstDiscount, some c.secondDiscount,
    some c.margin, some c.createdAt⟩

/-! ## Blobs (`backend/lib/storage.py`) -/

/-- One element of a stored JSON array: an object with the record type's
fields, or anything whose processing raises before validation. -/
inductive Elem (α : Type) where
  | obj (a : α)
  | bad
  deriving Repr, DecidableEq

/-- A stored blob's parsed content: a JSON array, or content that is absent
as an array (non-array JSON, or unparseable text - both paths of
`get_configurations`/`get_quotations` return `[]` without rewriting). -/
inductive Blob (α : Type) where
  | arr (l : List (Elem α))
  | notArr
  deriving Repr, DecidableEq

/-- The `quotations.json` blob: `none` when the key is absent (or holds an
empty string, which `if not data` also maps to `[]`). -/
abbrev QuotBlob := Option (Blob RawQuotation)

/-- The `configurations.json` blob. -/
abbrev ConfBlob := Option (Blob RawConfiguration)

/-- `save_quotations`: serializes every record with `.dict()` and
overwrites the blob (memory-mode `put_blob` always succeeds). -/
def save_quotations (qs : List Quotation) : QuotBlob :=
  some (Blob.arr (qs.map (fun q => Elem.obj (quotToRaw q))))

/-- `save_configurations`. -/
def save_configurations (cs : List Configuration) : ConfBlob :=
  some (Blob.arr (cs.map (fun c => Elem.obj (confToRaw c))))

/-- The per-element loop of `get_quotations`: a record is kept when
`data.get('createdAt', 0) > now - 30 days` and `Quotation(**data)`
validates; any dropped element (stale, invalid, or raising) sets
`cleanup_needed`. Returns (kept records, `cleanup_needed`). -/
def quotScan (now : Int) (today : String) : List (Elem RawQuotation) →
    List Quotation × Bool
  | [] => ([], false)
  | Elem.bad :: rest => ((quotScan now today rest).1, true)
  | Elem.obj r :: rest =>
    if r.createdAt.getD 0 > now - thirtyDaysMs then
      match parseQuotation today r with
      | some q => (q :: (quotScan now today rest).1, (quotScan now today rest).2)
      | none => ((quotScan now today rest).1, true)
    else ((quotScan now today rest).1, true)

/-- `get_quotations`: loads the blob, drops stale/invalid elements, and -
when anything was dropped - immediately re-saves the filtered collection.
Returns the records and the (possibly rewritten) blob. -/
def get_quotations (now : Int) (today : String) (b : QuotBlob) :
    List Quotation × QuotBlob :=
  match b with
  | none => ([], b)
  | some Blob.notArr => ([], b)
  | some (Blob.arr l) =>
    let s := quotScan now today l
    (s.1, if s.2 then save_quotations s.1 else b)

/-- `get_configurations`: loads the blob and silently drops invalid
elements; never rewrites the blob. -/
def get_configurations (b : ConfBlob) : List Configuration :=
  match b with
  | none => []
  | some Blob.notArr => []
  | some (Blob.arr l) =>
    l.filterMap (fun e =>
      match e with
      | Elem.obj r => parseConfiguration r
      | Elem.bad => none)

/-- Python `str.lower()` restricted to the stored names: per-character
lowercasing (structurally recursive so that concrete instances evaluate). -/
def pyLower (s : String) : String := String.mk (s.data.map Char.toLower)

/-! ## Collection-store operations (per-route handlers under `backend/api/`) -/

/-- Outcome of the quotation create operation
(`api/quotations/create.py do_POST`, transport stripped). -/
inductive QCreateResult where
  | created (q : Quotation)
  | validationError
  deriving Repr, DecidableEq

/-- Outcome of the configuration create operation
(`api/configurations/create.py do_POST`, transport stripped). -/
inductive CCreateResult where
  | created (c : Configuration)
  | validationError
  | duplicateError
  deriving Repr, DecidableEq

/-- `str(int(time.time() * 1000))` / `int(time.time() * 1000)` defaulting
of `id` and `createdAt` on a quotation create payload. -/
def assignQuotDefaults (now : Int) (r : RawQuotation) : RawQuotation :=
  { r with id := some (r.id.getD (toString now)),
           createdAt := some (r.createdAt.getD now) }

/-- The same defaulting on a configuration create payload. -/
def assignConfDefaults (now : Int) (r : RawConfiguration) : RawConfiguration :=
  { r with id := some (r.id.getD (toString now)),
           createdAt := some (r.createdAt.getD now) }

/-- `api/quotations/create.py`: default `id`/`createdAt`, validate with
`Quotation(**data)` (before any storage access, so a validation failure
touches no blob), then load, append and save. The validation-error branch
is the handler's live behavior; the created-and-saved branch renders the
spec's Collection Store `create` contract, which that file's dead
post-validation code (its storage calls raise at `asyncio.run` over the
synchronous service) was written to implement. -/
def createQuotation (now : Int) (today : String) (r : RawQuotation)
    (b : QuotBlob) : QCreateResult × QuotBlob :=
  match parseQuotation today (assignQuotDefaults now r) with
  | none => (QCreateResult.validationError, b)
  | some q =>
    let s := get_quotations now today b
    (QCreateResult.created q, save_quotations (s.1 ++ [q]))

/-- The configuration create operation: default `id`/`createdAt`, validate
with `Configuration(**data)`, then scan the loaded collection for a
case-insensitive name collision (`.lower()`) before appending and saving.
The duplicate scan is live in `app.py:235-239`; the append-and-save branch
renders the spec's Collection Store `create` contract, which no variant
completes (see `api_create_configuration_status` and
`app_handle_create_configuration` for the two variants' actual outcomes). -/
def createConfiguration (now : Int) (r : RawConfiguration)
    (b : ConfBlob) : CCreateResult × ConfBlob :=
  match parseConfiguration (assignConfDefaults now r) with
  | none => (CCreateResult.validationError, b)
  | some c =>
    let cs := get_configurations b
    if cs.any (fun e => pyLower e.name == pyLower c.name) then
      (CCreateResult.duplicateError, b)
    else
      (CCreateResult.created c, save_configurations (cs ++ [c]))

/-- HTTP status mapping of `api/quotations/create.py do_POST`: a body that
is not valid JSON raises `json.JSONDecodeError`, answered with 400 before
any storage access; a `ValueError` from validation is answered with 400;
otherwise 201. `none` stands for a malformed body. -/
def apiCreateQuotationStatus (now : Int) (today : String)
    (body : Option RawQuotation) (b : QuotBlob) : Nat × QuotBlob :=
  match body with
  | none => (400, b)
  | some r =>
    match createQuotation now today r b with
    | (QCreateResult.validationError, b2) => (400, b2)
    | (QCreateResult.created _, b2) => (201, b2)

/-! ## Auth gate (`backend/lib/auth.py`) -/

/-- The `AuthService` configuration: `AUTH_SECRET` (defaulted to
`'default-secret-key'` at construction, so always a string), and
`AUTH_USERNAME`/`AUTH_PASSWORD`, which are `None` when unset. -/
structure AuthConfig where
  secret : String
  username : Option String
  password : Option String
  deriving Repr, DecidableEq

/-- A JWT payload as issued by `generate_token`: the embedded `username`
claim (absent for a token without one) and the `exp` claim. -/
structure TokenPayload where
  username : Option String
  exp : Int
  deriving Repr, DecidableEq

/-- An HMAC-signed token, with the signing collaborator abstracted: the
signature is valid under secret `s` exactly when `signedWith = s`. -/
structure Token where
  payload : TokenPayload
  signedWith : String
  deriving Repr, DecidableEq

/-- `jwt.decode(token, secret, algorithms=['HS256'])`: `none` for an
invalid signature (`InvalidTokenError`) or an expired token
(`ExpiredSignatureError`). -/
def jwtDecode (secret : String) (now : Int) (t : Token) : Option TokenPayload :=
  if t.signedWith == secret then
    if now < t.payload.exp then some t.payload else none
  else none

/-- `AuthService.verify_token`: decode, then return
`payload.get('username')` only when it equals the configured username. -/
def verify_token (cfg : AuthConfig) (now : Int) (t : Token) : Option String :=
  match jwtDecode cfg.secret now t with
  | some p => if p.username == cfg.username then p.username else none
  | none => none

/-- Python `candidate == configured` where `configured` may be `None`:
a string never equals `None`. -/
def optEq (configured : Option String) (candidate : String) : Bool :=
  match configured with
  | some s => candidate == s
  | none => false

/-- `AuthService.validate_user`: exact match of both credentials against
the configured (possibly `None`) identity. -/
def validate_user (cfgU cfgP : Option String) (u p : String) : Bool :=
  optEq cfgU u && optEq cfgP p

/-! ## The consolidated `backend/app.py` handler (divergent variant) -/

/-- `app.py _handle_login` observable outcome: status, success flag,
token. `envU`/`envP` are the `AUTH_USERNAME`/`AUTH_PASSWORD` environment
variables; `os.environ.get` defaults them to `'arumugam'`/`'pappu'`. -/
def app_handle_login (envU envP : Option String) (username password : String) :
    Nat × Bool × Option String :=
  if username == "" || password == "" then (400, false, none)
  else if username == envU.getD "arumugam" && password == envP.getD "pappu" then
    (200, true, some "dummy-jwt-token-for-testing")
  else (401, false, none)

/-- `app.py _get_request_body`: a body that fails to parse as JSON is
swallowed (`except` returns `{}`), as is an empty body. `none` stands for
a malformed (or absent) body. -/
def app_get_request_body (body : Option RawQuotation) : RawQuotation :=
  body.getD {}

/-- An element of the in-process quotations list inside
`app.py _handle_create_quotation`: the loaded records are pydantic
`Quotation` objects, but the appended payload stays a plain `dict`. -/
inductive AppElem where
  | model (q : Quotation)
  | rawDict (r : RawQuotation)
  deriving Repr, DecidableEq

/-- The `[quotation.dict() for quotation in quotations]` comprehension in
`save_quotations`: a plain `dict` has no `.dict()` method, so the
comprehension raises and the whole save fails. -/
def appSerialize : List AppElem → Option (List RawQuotation)
  | [] => some []
  | AppElem.model q :: rest => (appSerialize rest).map (fun l => quotToRaw q :: l)
  | AppElem.rawDict _ :: _ => none

/-- `save_quotations` as called from `app.py` on the mixed list: the
raised `AttributeError` is caught and the save returns `False` without
writing the blob. -/
def app_save_quotations (l : List AppElem) (b : QuotBlob) : Bool × QuotBlob :=
  match appSerialize l with
  | some rs => (true, some (Blob.arr (rs.map Elem.obj)))
  | none => (false, b)

/-- `app.py _handle_create_quotation`: parse the body (malformed becomes
`{}`), default `id`/`createdAt`/`date`, load, append the plain `dict`, and
save; responds 201 on save success, 500 on save failure. There is no
validation and no 400 path. -/
def app_handle_create_quotation (now : Int) (today : String)
    (body : Option RawQuotation) (b : QuotBlob) : Nat × QuotBlob :=
  let data := app_get_request_body body
  let data := { assignQuotDefaults now data with
                date := some (data.date.getD today) }
  let s := get_quotations now today b
  let l := s.1.map AppElem.model ++ [AppElem.rawDict data]
  let saved := app_save_quotations l s.2
  if saved.1 then (201, saved.2) else (500, saved.2)

/-- HTTP status of `api/configurations/create.py do_POST` as the code
actually runs: a malformed body (`none`) raises `json.JSONDecodeError`
(400); a payload that fails `Configuration(**data)` raises a pydantic
`ValidationError ⊂ ValueError` (400); and a payload that validates still
gets 400, because `asyncio.run(storage_service.get_configurations())`
raises `ValueError` (`a coroutine was expected`) over the synchronous
storage service - the duplicate check, append and save below that line
are unreachable, so the blob is never touched (the inner synchronous
`get_configurations()` call does run, but performs no write). -/
def api_create_configuration_status (now : Int)
    (body : Option RawConfiguration) (b : ConfBlob) : Nat × ConfBlob :=
  match body with
  | none => (400, b)
  | some r =>
    match parseConfiguration (assignConfDefaults now r) with
    | none => (400, b)
    | some _ => (400, b)

/-- An element of the in-process configurations list inside
`app.py _handle_create_configuration`: loaded records are pydantic
`Configuration` objects, the appended payload stays a plain `dict`. -/
inductive AppConfElem where
  | model (c : Configuration)
  | rawDict (r : RawConfiguration)
  deriving Repr, DecidableEq

/-- The `[config.dict() for config in configurations]` comprehension in
`save_configurations`: a plain `dict` has no `.dict()` method, so the
comprehension raises and the whole save fails. -/
def appConfSerialize : List AppConfElem → Option (List RawConfiguration)
  | [] => some []
  | AppConfElem.model c :: rest =>
    (appConfSerialize rest).map (fun l => confToRaw c :: l)
  | AppConfElem.rawDict _ :: _ => none

/-- `save_configurations` as called from `app.py` on the mixed list: the
raised `AttributeError` is caught and the save returns `False` without
writing the blob. -/
def app_save_configurations (l : List AppConfElem) (b : ConfBlob) :
    Bool × ConfBlob :=
  match appConfSerialize l with
  | some rs => (true, some (Blob.arr (rs.map Elem.obj)))
  | none => (false, b)

/-- `app.py _handle_create_configuration`: parse the body (malformed
becomes `{}`), default `id`/`createdAt`, require
`name`/`firstDiscount`/`secondDiscount`/`margin` to be present (400 when
missing), reject a case-insensitive name collision (400), then append the
plain `dict` and save; 201 on save success, 500 on save failure. No
percentage-range validation happens on this path. -/
def app_handle_create_configuration (now : Int)
    (body : Option RawConfiguration) (b : ConfBlob) : Nat × ConfBlob :=
  let data := assignConfDefaults now (body.getD {})
  if data.name.isNone || data.firstDiscount.isNone ||
      data.secondDiscount.isNone || data.margin.isNone then
    (400, b)
  else
    let cs := get_configurations b
    if cs.any (fun e => pyLower e.name == pyLower (data.name.getD "")) then
      (400, b)
    else
      let l := cs.map AppConfElem.model ++ [AppConfElem.rawDict data]
      let saved := app_save_configurations l b
      if saved.1 then (201, saved.2) else (500, saved.2)

/-- The found-loop of `app.py _handle_update_quotation`: replace the first
record whose `id` matches with the plain-`dict` payload, in place,
leaving every other position's pydantic object untouched; `none` when no
record matches. -/
def replaceFirstApp (qid : String) (d : RawQuotation) :
    List Quotation → Option (List AppElem)
  | [] => none
  | q :: rest =>
    if q.id == qid then some (AppElem.rawDict d :: rest.map AppElem.model)
    else (replaceFirstApp qid d rest).map (fun l => AppElem.model q :: l)

/-- `app.py _handle_update_quotation`: parse the body (malformed becomes
`{}`), force `data['id'] = quotation_id`, load (synchronously - this is
the only variant whose update reaches the collection:
`api/quotations/[id].py do_PUT` raises at `asyncio.run` over the
synchronous service and answers 400), scan for the first `id` match,
answer 404 without saving when none matches, otherwise replace it in
place with the plain `dict` and call `save_quotations` on the mixed list;
200 on save success, 500 on save failure. -/
def app_handle_update_quotation (now : Int) (today : String) (qid : String)
    (body : Option RawQuotation) (b : QuotBlob) : Nat × QuotBlob :=
  let data := { app_get_request_body body with id := some qid }
  let s := get_quotations now today b
  match replaceFirstApp qid data s.1 with
  | none => (404, s.2)
  | some l2 =>
    let saved := app_save_quotations l2 s.2
    if saved.1 then (200, saved.2) else (500, saved.2)

/-! ## Concrete records used to instantiate the verified properties -/

/-- A reference instant: day 100 in epoch-millis. -/
def wNow : Int := 100 * dayMs

/-- A reference current-date string. -/
def wToday : String := "12/10/2025"

/-- A validated sample item. -/
def wItem : QuotationItem :=
  { sno := 1, itemName := "pipe", rate := 5, quantity := 2, unit := "m",
    amount := 10 }

/-- The stored JSON object of `wItem`. -/
def wItemRaw : RawItem :=
  { sno := some 1, itemName := some "pipe", rate := some 5,
    quantity := some 2, unit := some "m", amount := some 10 }

/-- A stored quotation object aged 29 days at `wNow`. -/
def wQuotRaw : RawQuotation :=
  { id := some "q1", buyerName := some "B", buyerAddress := some "A",
    items := some [wItemRaw], subtotal := some 10, gst := some 1,
    transportCharges := some 2, total := some 13,
    createdAt := some (wNow - 29 * dayMs), date := some "13/09/2025" }

/-- The validated record `wQuotRaw` parses to. -/
def wQuot : Quotation :=
  { id := "q1", buyerName := "B", buyerAddress := "A", items := [wItem],
    subtotal := 10, gst := 1, transportCharges := 2, total := 13,
    createdAt := wNow - 29 * dayMs, date := "13/09/2025" }

/-- A stored quotation object aged 31 days at `wNow`. -/
def wQuotStaleRaw : RawQuotation :=
  { wQuotRaw with id := some "q2", createdAt := some (wNow - 31 * dayMs) }

/-- A stored array holding one fresh and one stale quotation. -/
def wElems : List (Elem RawQuotation) :=
  [Elem.obj wQuotRaw, Elem.obj wQuotStaleRaw]

/-- The blob holding `wElems`. -/
def wBlob : QuotBlob := some (Blob.arr wElems)

/-- A blob holding only the fresh quotation (no cleanup on load). -/
def wFreshBlob : QuotBlob := some (Blob.arr [Elem.obj wQuotRaw])

/-- An item object with a negative rate. -/
def wItemNegRaw : RawItem := { wItemRaw with rate := some (-1) }

/-- A quotation payload containing `wItemNegRaw`. -/
def wQuotNegRaw : RawQuotation := { wQuotRaw with items := some [wItemNegRaw] }

/-- An update payload renaming the buyer of `wQuotRaw` (no `id`). -/
def wUpdRaw : RawQuotation := { wQuotRaw with id := none, buyerName := some "C" }

/-- A configuration create payload (no `id`/`createdAt`). -/
def wConfRaw : RawConfiguration :=
  { name := some "Standard", firstDiscount := some 10,
    secondDiscount := some 5, margin := some 15 }

/-- The validated record `wConfRaw` produces when created at instant 5. -/
def wConf : Configuration :=
  { id := "5", name := "Standard", firstDiscount := 10, secondDiscount := 5,
    margin := 15, createdAt := 5 }

/-- A payload whose name collides with `wConf` under case-folding. -/
def wConfDupRaw : RawConfiguration := { wConfRaw with name := some "STANDARD" }

/-- The validated record `wConfDupRaw` produces when created at instant 7. -/
def wConfDup : Configuration :=
  { id := "7", name := "STANDARD", firstDiscount := 10, secondDiscount := 5,
    margin := 15, createdAt := 7 }

/-- A payload with `margin` out of `[0,100]`. -/
def wConfBadRaw : RawConfiguration := { wConfRaw with margin := some 150 }

/-- The blob holding the single configuration `wConf`. -/
def wConfBlob : ConfBlob := save_configurations [wConf]

/-! ## Validity predicates and parsing lemmas -/

/-- The range invariant `validate_positive_numbers` enforces on an item. -/
def QuotationItem.Valid (it : QuotationItem) : Prop :=
  0 ≤ it.rate ∧ 0 ≤ it.quantity ∧ 0 ≤ it.amount

instance (it : QuotationItem) : Decidable it.Valid := by
  unfold QuotationItem.Valid; infer_instance

/-- The range invariant pydantic validation enforces on a quotation. -/
def Quotation.Valid (q : Quotation) : Prop :=
  0 ≤ q.subtotal ∧ 0 ≤ q.gst ∧ 0 ≤ q.transportCharges ∧ 0 ≤ q.total ∧
    ∀ it ∈ q.items, it.Valid

instance (q : Quotation) : Decidable q.Valid := by
  unfold Quotation.Valid; infer_instance

/-- The range invariant `validate_percentages` enforces on a configuration. -/
def Configuration.PercValid (c : Configuration) : Prop :=
  0 ≤ c.firstDiscount ∧ c.firstDiscount ≤ 100 ∧
    0 ≤ c.secondDiscount ∧ c.secondDiscount ≤ 100 ∧
    0 ≤ c.margin ∧ c.margin ≤ 100

instance (c : Configuration) : Decidable c.PercValid := by
  unfold Configuration.PercValid; infer_instance

theorem parseItem_sound {r : RawItem} {it : QuotationItem}
    (h : parseItem r = some it) :
    it.Valid ∧ r.rate = some it.rate ∧ r.quantity = some it.quantity ∧
      r.amount = some it.amount := by
  rcases r with ⟨sno, itemName, rate, quantity, unit, amount⟩
  cases sno <;> cases itemName <;> cases rate <;> cases quantity <;>
    cases unit <;> cases amount <;> simp_all [parseItem]
  obtain ⟨⟨h1, h2, h3⟩, rfl⟩ := h
  exact ⟨⟨h1, h2, h3⟩, rfl, rfl, rfl⟩

theorem parseItem_itemToRaw {it : QuotationItem} (h : it.Valid) :
    parseItem (itemToRaw it) = some it := by
  obtain ⟨h1, h2, h3⟩ := h
  simp [parseItem, itemToRaw, not_lt.mpr h1, not_lt.mpr h2, not_lt.mpr h3]

theorem parseItems_sound {rs : List RawItem} {its : List QuotationItem}
    (h : parseItems rs = some its) : ∀ it ∈ its, it.Valid := by
  induction rs generalizing its with
  | nil => unfold parseItems at h; cases h; simp
  | cons r rest ih =>
    unfold parseItems at h
    cases hr : parseItem r with
    | none => rw [hr] at h; simp at h
    | some it =>
      cases hrest : parseItems rest with
      | none => rw [hr, hrest] at h; simp at h
      | some its2 =>
        rw [hr, hrest] at h
        cases h
        intro x hx
        rcases List.mem_cons.mp hx with h1 | h2
        · exact h1 ▸ (parseItem_sound hr).1
        · exact ih hrest x h2

theorem parseItems_mem {rs : List RawItem} {its : List QuotationItem}
    {ri : RawItem} (hmem : ri ∈ rs) (h : parseItems rs = some its) :
    ∃ it, parseItem ri = some it := by
  induction rs generalizing its with
  | nil => simp at hmem
  | cons r rest ih =>
    unfold parseItems at h
    cases hr : parseItem r with
    | none => rw [hr] at h; simp at h
    | some it =>
      cases hrest : parseItems rest with
      | none => rw [hr, hrest] at h; simp at h
      | some its2 =>
        rcases List.mem_cons.mp hmem with rfl | hmem2
        · exact ⟨it, hr⟩
        · exact ih hmem2 hrest

theorem parseItems_map {its : List QuotationItem}
    (h : ∀ it ∈ its, it.Valid) :
    parseItems (its.map itemToRaw) = some its := by
  induction its with
  | nil => rfl
  | cons it rest ih =>
    have hrest := ih (fun x hx => h x (List.mem_cons_of_mem _ hx))
    unfold parseItems
    rw [List.map_cons]
    simp only
    rw [parseItem_itemToRaw (h it (List.mem_cons_self _ _)), hrest]

theorem parseQuotation_sound {today : String} {r : RawQuotation}
    {q : Quotation} (h : parseQuotation today r = some q) :
    q.Valid ∧ r.createdAt = some q.createdAt ∧
      r.subtotal = some q.subtotal ∧ r.gst = some q.gst ∧
      r.transportCharges = some q.transportCharges ∧ r.total = some q.total ∧
      ∃ ri, r.items = some ri ∧ parseItems ri = some q.items := by
  rcases r with ⟨id, bn, ba, items, st, gst, tc, tot, ca, date⟩
  cases id <;> cases bn <;> cases ba <;> cases items <;> cases st <;>
    cases gst <;> cases tc <;> cases tot <;> cases ca <;>
    simp_all [parseQuotation]
  rename_i idv bnv bav itemsv stv gstv tcv totv cav
  cases hits : parseItems itemsv with
  | none => rw [hits] at h; simp at h
  | some its =>
    rw [hits] at h
    simp at h
    obtain ⟨⟨h1, h2, h3, h4⟩, rfl⟩ := h
    exact ⟨⟨h1, h2, h3, h4, parseItems_sound hits⟩, rfl, rfl, rfl, rfl, rfl, rfl⟩

theorem parseQuotation_quotToRaw {today : String} {q : Quotation}
    (h : q.Valid) : parseQuotation today (quotToRaw q) = some q := by
  obtain ⟨h1, h2, h3, h4, h5⟩ := h
  simp [parseQuotation, quotToRaw, parseItems_map h5, not_lt.mpr h1,
    not_lt.mpr h2, not_lt.mpr h3, not_lt.mpr h4]

theorem parseConfiguration_sound {r : RawConfiguration} {c : Configuration}
    (h : parseConfiguration r = some c) :
    c.PercValid ∧ r.firstDiscount = some c.firstDiscount ∧
      r.secondDiscount = some c.secondDiscount ∧ r.margin = some c.margin := by
  rcases r with ⟨id, name, fd, sd, m, ca⟩
  cases id <;> cases name <;> cases fd <;> cases sd <;> cases m <;>
    cases ca <;> simp_all [parseConfiguration]
  obtain ⟨⟨h1, h2⟩, ⟨h3, h4⟩, ⟨h5, h6⟩, rfl⟩ := h
  exact ⟨⟨h1, h2, h3, h4, h5, h6⟩, rfl, rfl, rfl⟩

theorem parseConfiguration_confToRaw {c : Configuration}
    (h : c.PercValid) : parseConfiguration (confToRaw c) = some c := by
  obtain ⟨h1, h2, h3, h4, h5, h6⟩ := h
  simp [parseConfiguration, confToRaw, not_lt.mpr h1, not_lt.mpr h2,
    not_lt.mpr h3, not_lt.mpr h4, not_lt.mpr h5, not_lt.mpr h6]

/-! ## Lemmas about the retention scan and the store operations -/

theorem quotScan_sound {now : Int} {today : String}
    {l : List (Elem RawQuotation)} {q : Quotation}
    (h : q ∈ (quotScan now today l).1) :
    q.Valid ∧ now - thirtyDaysMs < q.createdAt := by
  induction l with
  | nil => simp [quotScan] at h
  | cons e rest ih =>
    cases e with
    | bad => simp only [quotScan] at h; exact ih h
    | obj r =>
      simp only [quotScan] at h
      by_cases hfresh : r.createdAt.getD 0 > now - thirtyDaysMs
      · rw [if_pos hfresh] at h
        cases hp : parseQuotation today r with
        | none => rw [hp] at h; exact ih h
        | some q2 =>
          rw [hp] at h
          rcases List.mem_cons.mp h with rfl | hmem
          · obtain ⟨hv, hca, _⟩ := parseQuotation_sound hp
            refine ⟨hv, ?_⟩
            rw [hca] at hfresh
            simpa using hfresh
          · exact ih hmem
      · rw [if_neg hfresh] at h
        exact ih h

theorem quotScan_length_le (now : Int) (today : String)
    (l : List (Elem RawQuotation)) :
    (quotScan now today l).1.length ≤ l.length := by
  induction l with
  | nil => simp [quotScan]
  | cons e rest ih =>
    cases e with
    | bad => simp only [quotScan]; exact Nat.le_succ_of_le ih
    | obj r =>
      simp only [quotScan]
      by_cases hfresh : r.createdAt.getD 0 > now - thirtyDaysMs
      · rw [if_pos hfresh]
        cases hp : parseQuotation today r with
        | none => exact Nat.le_succ_of_le ih
        | some q => simpa using ih
      · rw [if_neg hfresh]
        exact Nat.le_succ_of_le ih

theorem quotScan_cleanup_iff (now : Int) (today : String)
    (l : List (Elem RawQuotation)) :
    (quotScan now today l).2 = true ↔
      (quotScan now today l).1.length < l.length := by
  induction l with
  | nil => simp [quotScan]
  | cons e rest ih =>
    cases e with
    | bad =>
      simp only [quotScan]
      constructor
      · intro _
        exact Nat.lt_succ_of_le (quotScan_length_le now today rest)
      · intro _; trivial
    | obj r =>
      simp only [quotScan]
      by_cases hfresh : r.createdAt.getD 0 > now - thirtyDaysMs
      · rw [if_pos hfresh]
        cases hp : parseQuotation today r with
        | none =>
          constructor
          · intro _
            exact Nat.lt_succ_of_le (quotScan_length_le now today rest)
          · intro _; rfl
        | some q =>
          simpa using ih
      · rw [if_neg hfresh]
        constructor
        · intro _
          exact Nat.lt_succ_of_le (quotScan_length_le now today rest)
        · intro _; rfl

theorem quotScan_serialized {now : Int} {today : String}
    {qs : List Quotation}
    (h : ∀ q ∈ qs, q.Valid ∧ now - thirtyDaysMs < q.createdAt) :
    quotScan now today (qs.map (fun q => Elem.obj (quotToRaw q))) =
      (qs, false) := by
  induction qs with
  | nil => rfl
  | cons q rest ih =>
    obtain ⟨hv, hfresh⟩ := h q (List.mem_cons_self _ _)
    have hrest := ih (fun x hx => h x (List.mem_cons_of_mem _ hx))
    rw [List.map_cons]
    simp only [quotScan]
    rw [if_pos (by simpa [quotToRaw] using hfresh)]
    rw [parseQuotation_quotToRaw hv]
    simp [hrest]

theorem quotScan_keeps {now : Int} {today : String}
    {l : List (Elem RawQuotation)} {r : RawQuotation} {q : Quotation}
    (hmem : Elem.obj r ∈ l)
    (hfresh : r.createdAt.getD 0 > now - thirtyDaysMs)
    (hp : parseQuotation today r = some q) :
    q ∈ (quotScan now today l).1 := by
  induction l with
  | nil => simp at hmem
  | cons e rest ih =>
    rcases List.mem_cons.mp hmem with rfl | hmem2
    · simp only [quotScan]
      rw [if_pos hfresh, hp]
      exact List.mem_cons_self _ _
    · cases e with
      | bad => simp only [quotScan]; exact ih hmem2
      | obj r2 =>
        simp only [quotScan]
        by_cases hf2 : r2.createdAt.getD 0 > now - thirtyDaysMs
        · rw [if_pos hf2]
          cases hp2 : parseQuotation today r2 with
          | none => exact ih hmem2
          | some q2 => exact List.mem_cons_of_mem _ (ih hmem2)
        · rw [if_neg hf2]
          exact ih hmem2

/-- A second `get_quotations` on the blob left behind by a first one
returns the same records and leaves the blob alone: the self-heal
re-serializes exactly the valid, fresh records it returned. -/
theorem get_quotations_stable (now : Int) (today : String) (b : QuotBlob) :
    get_quotations now today (get_quotations now today b).2 =
      ((get_quotations now today b).1, (get_quotations now today b).2) := by
  match b with
  | none => rfl
  | some Blob.notArr => rfl
  | some (Blob.arr l) =>
    by_cases hc : (quotScan now today l).2
    · have h1 : get_quotations now today (some (Blob.arr l)) =
          ((quotScan now today l).1, save_quotations (quotScan now today l).1) := by
        simp [get_quotations, hc]
      rw [h1]
      simp only [save_quotations, get_quotations]
      rw [quotScan_serialized (fun q hq => quotScan_sound hq)]
      simp [save_quotations]
    · have h1 : get_quotations now today (some (Blob.arr l)) =
          ((quotScan now today l).1, some (Blob.arr l)) := by
        simp [get_quotations, hc]
      rw [h1]
      exact h1

theorem get_configurations_save {cs : List Configuration}
    (h : ∀ c ∈ cs, c.PercValid) :
    get_configurations (save_configurations cs) = cs := by
  unfold get_configurations save_configurations
  induction cs with
  | nil => rfl
  | cons c rest ih =>
    have hrest := ih (fun x hx => h x (List.mem_cons_of_mem _ hx))
    simp only [List.map_cons, List.filterMap_cons] at hrest ⊢
    rw [parseConfiguration_confToRaw (h c (List.mem_cons_self _ _)), hrest]

theorem get_configurations_valid {b : ConfBlob} {c : Configuration}
    (h : c ∈ get_configurations b) : c.PercValid := by
  match b with
  | none => simp [get_configurations] at h
  | some Blob.notArr => simp [get_configurations] at h
  | some (Blob.arr l) =>
    unfold get_configurations at h
    obtain ⟨e, _, he⟩ := List.mem_filterMap.mp h
    cases e with
    | bad => simp at he
    | obj r => exact (parseConfiguration_sound he).1

theorem quotScan_append (now : Int) (today : String)
    (l1 l2 : List (Elem RawQuotation)) :
    (quotScan now today (l1 ++ l2)).1 =
      (quotScan now today l1).1 ++ (quotScan now today l2).1 := by
  induction l1 with
  | nil => simp [quotScan]
  | cons e rest ih =>
    cases e with
    | bad => simp only [List.cons_append, quotScan]; exact ih
    | obj r =>
      simp only [List.cons_append, quotScan]
      by_cases hfresh : r.createdAt.getD 0 > now - thirtyDaysMs
      · simp only [if_pos hfresh]
        cases hp : parseQuotation today r with
        | none => simp only [hp]; exact ih
        | some q => simp only [hp]; simp [ih]
      · simp only [if_neg hfresh]
        exact ih

theorem appSerialize_rawDict (l : List AppElem) (d : RawQuotation) :
    appSerialize (l ++ [AppElem.rawDict d]) = none := by
  induction l with
  | nil => rfl
  | cons e rest ih =>
    cases e with
    | model q =>
      simp only [List.cons_append, appSerialize, List.append_eq, ih]
      rfl
    | rawDict r => rfl

theorem createConfiguration_none {now : Int} {r : RawConfiguration}
    {b : ConfBlob} (hp : parseConfiguration (assignConfDefaults now r) = none) :
    createConfiguration now r b = (CCreateResult.validationError, b) := by
  unfold createConfiguration; rw [hp]

theorem createConfiguration_some {now : Int} {r : RawConfiguration}
    {b : ConfBlob} {c : Configuration}
    (hp : parseConfiguration (assignConfDefaults now r) = some c) :
    createConfiguration now r b =
      if (get_configurations b).any
          (fun e => pyLower e.name == pyLower c.name) then
        (CCreateResult.duplicateError, b)
      else
        (CCreateResult.created c,
          save_configurations (get_configurations b ++ [c])) := by
  unfold createConfiguration; rw [hp]

theorem createQuotation_none {now : Int} {today : String} {r : RawQuotation}
    {b : QuotBlob} (hp : parseQuotation today (assignQuotDefaults now r) = none) :
    createQuotation now today r b = (QCreateResult.validationError, b) := by
  unfold createQuotation; rw [hp]

theorem createQuotation_some {now : Int} {today : String} {r : RawQuotation}
    {b : QuotBlob} {q : Quotation}
    (hp : parseQuotation today (assignQuotDefaults now r) = some q) :
    createQuotation now today r b =
      (QCreateResult.created q,
        save_quotations ((get_quotations now today b).1 ++ [q])) := by
  unfold createQuotation; rw [hp]

theorem appSerialize_of_mem {d : RawQuotation} {l : List AppElem}
    (h : AppElem.rawDict d ∈ l) : appSerialize l = none := by
  induction l with
  | nil => simp at h
  | cons e rest ih =>
    cases e with
    | model q =>
      have hmem : AppElem.rawDict d ∈ rest := by
        rcases List.mem_cons.mp h with h1 | h2
        · exact absurd h1 (by simp)
        · exact h2
      simp only [appSerialize, ih hmem]
      rfl
    | rawDict r => rfl

theorem appConfSerialize_rawDict (l : List AppConfElem)
    (d : RawConfiguration) :
    appConfSerialize (l ++ [AppConfElem.rawDict d]) = none := by
  induction l with
  | nil => rfl
  | cons e rest ih =>
    cases e with
    | model c =>
      simp only [List.cons_append, appConfSerialize, List.append_eq, ih]
      rfl
    | rawDict r => rfl

theorem replaceFirstApp_none_iff {qid : String} {d : RawQuotation}
    {l : List Quotation} :
    replaceFirstApp qid d l = none ↔ ∀ q ∈ l, q.id ≠ qid := by
  induction l with
  | nil => simp [replaceFirstApp]
  | cons q rest ih =>
    unfold replaceFirstApp
    by_cases hq : q.id = qid
    · simp [hq]
    · rw [if_neg (by simpa using hq)]
      rw [Option.map_eq_none']
      rw [ih]
      constructor
      · intro hall x hx
        rcases List.mem_cons.mp hx with rfl | hx2
        · exact hq
        · exact hall x hx2
      · intro hall x hx
        exact hall x (List.mem_cons_of_mem _ hx)

theorem replaceFirstApp_some {qid : String} {d : RawQuotation}
    {l : List Quotation} {l2 : List AppElem}
    (h : replaceFirstApp qid d l = some l2) :
    ∃ i : Nat, i < l.length ∧
      l2 = (l.map AppElem.model).set i (AppElem.rawDict d) ∧
      (∃ q, l.get? i = some q ∧ q.id = qid) ∧
      ∀ j < i, ∀ q, l.get? j = some q → q.id ≠ qid := by
  induction l generalizing l2 with
  | nil => simp [replaceFirstApp] at h
  | cons q rest ih =>
    unfold replaceFirstApp at h
    by_cases hq : q.id = qid
    · rw [if_pos (by simpa using hq)] at h
      cases h
      exact ⟨0, by simp, by simp, ⟨q, by simp, hq⟩, by simp⟩
    · rw [if_neg (by simpa using hq)] at h
      cases hrest : replaceFirstApp qid d rest with
      | none => rw [hrest] at h; simp at h
      | some l3 =>
        rw [hrest] at h
        cases h
        obtain ⟨i, hi, hset, ⟨qm, hqm, hqid⟩, hbefore⟩ := ih hrest
        refine ⟨i + 1, by simpa using hi, by simp [hset],
          ⟨qm, by simpa using hqm, hqid⟩, ?_⟩
        intro j hj q2 hq2
        cases j with
        | zero =>
          simp at hq2
          exact hq2 ▸ hq
        | succ j2 =>
          exact hbefore j2 (Nat.lt_of_succ_lt_succ hj) q2 (by simpa using hq2)

theorem replaceFirstApp_mem_rawDict {qid : String} {d : RawQuotation}
    {l : List Quotation} {l2 : List AppElem}
    (h : replaceFirstApp qid d l = some l2) : AppElem.rawDict d ∈ l2 := by
  induction l generalizing l2 with
  | nil => simp [replaceFirstApp] at h
  | cons q rest ih =>
    unfold replaceFirstApp at h
    by_cases hq : q.id = qid
    · rw [if_pos (by simpa using hq)] at h
      cases h
      exact List.mem_cons_self _ _
    · rw [if_neg (by simpa using hq)] at h
      cases hrest : replaceFirstApp qid d rest with
      | none => rw [hrest] at h; simp at h
      | some l3 =>
        rw [hrest] at h
        cases h
        exact List.mem_cons_of_mem _ (ih hrest)

theorem app_handle_update_quotation_eq (now : Int) (today : String)
    (qid : String) (body : Option RawQuotation) (b : QuotBlob) :
    app_handle_update_quotation now today qid body b =
      match replaceFirstApp qid
          { app_get_request_body body with id := some qid }
          (get_quotations now today b).1 with
      | none => (404, (get_quotations now today b).2)
      | some l2 =>
        if (app_save_quotations l2 (get_quotations now today b).2).1 then
          (200, (app_save_quotations l2 (get_quotations now today b).2).2)
        else
          (500, (app_save_quotations l2 (get_quotations now today b).2).2) :=
  rfl

/-! ## Verified properties of the repository -/

/-- Claim C7: calling `loadAll` twice with no intervening mutation, at the
same instant (no retention boundary crossed between the calls), yields
identical ordered sequences - and the blob left after the first call is
not rewritten again. -/
theorem claim_C7_load_idempotent (now : Int) (today : String) (b : QuotBlob) :
    (get_quotations now today (get_quotations now today b).2).1 =
      (get_quotations now today b).1 ∧
    (get_quotations now today (get_quotations now today b).2).2 =
      (get_quotations now today b).2 := by
  have h := get_quotations_stable now today b
  exact ⟨congrArg Prod.fst h, congrArg Prod.snd h⟩

/-- Claim C8 (counterexample): a request whose body is not valid JSON does
NOT always get a 400: the consolidated `app.py` create-quotation handler
swallows the parse error (`_get_request_body` returns `{}`), proceeds, and
answers 500 from the failed mixed-list save - here at body `none`
(malformed), empty blob, instant 0. -/
theorem claim_C8_counterexample :
    (app_handle_create_quotation 0 "12/10/2025" none none).1 = 500 ∧
    (app_handle_create_quotation 0 "12/10/2025" none none).1 ≠ 400 := by
  refine ⟨rfl, by decide⟩

/-- Claim C8 (amended): the per-route handler
(`api/quotations/create.py`) answers a body that is not valid JSON with
status 400 and touches no record, while the consolidated `app.py`
create-quotation handler instead parses the malformed body as `{}` and
answers 500 (its save of the mixed list always fails), never 400. -/
theorem claim_C8_malformed_body (now : Int) (today : String) (b : QuotBlob) :
    apiCreateQuotationStatus now today none b = (400, b) ∧
    (app_handle_create_quotation now today none b).1 = 500 := by
  constructor
  · rfl
  · unfold app_handle_create_quotation
    simp only [appSerialize_rawDict, app_save_quotations]
    simp

/-- Claim C9: `verify_token` returns the embedded username exactly when
the token's signature is valid under the configured secret, the token is
unexpired, and the embedded username equals the configured username; in
every other case it returns `none`. -/
theorem claim_C9_verify_token (cfg : AuthConfig) (now : Int) (t : Token)
    (u : String) :
    verify_token cfg now t = some u ↔
      t.signedWith = cfg.secret ∧ now < t.payload.exp ∧
        t.payload.username = some u ∧ cfg.username = some u := by
  unfold verify_token jwtDecode
  by_cases hs : t.signedWith = cfg.secret
  · rw [if_pos (by simpa using hs)]
    by_cases he : now < t.payload.exp
    · rw [if_pos he]
      simp only
      by_cases hu : t.payload.username = cfg.username
      · rw [if_pos (by simpa using hu)]
        constructor
        · intro h
          exact ⟨hs, he, h, hu ▸ h⟩
        · intro ⟨_, _, h3, _⟩
          exact h3
      · rw [if_neg (by simpa using hu)]
        constructor
        · intro h; simp at h
        · intro ⟨_, _, h3, h4⟩
          exact absurd (h3.trans h4.symm) hu
    · rw [if_neg he]
      constructor
      · intro h; simp at h
      · intro ⟨_, h2, _, _⟩
        exact absurd h2 he
  · rw [if_neg (by simpa using hs)]
    constructor
    · intro h; simp at h
    · intro ⟨h1, _, _, _⟩
      exact absurd h1 hs

/-- Claim C10: with `AUTH_USERNAME`/`AUTH_PASSWORD` unset, the
consolidated `app.py` login handler accepts the hardcoded pair
`arumugam`/`pappu` (status 200, success, token), while
`AuthService.validate_user` - whose configured identity is then `None` -
rejects every string credential pair. -/
theorem claim_C10_login_divergence :
    app_handle_login none none "arumugam" "pappu" =
      (200, true, some "dummy-jwt-token-for-testing") ∧
    ∀ u p : String, validate_user none none u p = false := by
  exact ⟨by decide, fun u p => rfl⟩

/-- Claim C1: every quotation returned by `loadAll` is strictly younger
than `now - 30` days (so a 31-day-old one is absent); whenever at least
one stored element was dropped (for age or validation failure) the
filtered collection is immediately re-saved to the blob; and a quotation
aged 29 days that validates is present in the result and still present
after re-loading from the (possibly rewritten) blob. -/
theorem claim_C1_retention (now : Int) (today : String) :
    (∀ b q, q ∈ (get_quotations now today b).1 →
      now - thirtyDaysMs < q.createdAt)
    ∧ (∀ l, (get_quotations now today (some (Blob.arr l))).1.length < l.length →
      (get_quotations now today (some (Blob.arr l))).2 =
        save_quotations (get_quotations now today (some (Blob.arr l))).1)
    ∧ (∀ l r q, Elem.obj r ∈ l → r.createdAt = some (now - 29 * dayMs) →
      parseQuotation today r = some q →
      q ∈ (get_quotations now today (some (Blob.arr l))).1 ∧
        q ∈ (get_quotations now today
          (get_quotations now today (some (Blob.arr l))).2).1) := by
  refine ⟨?_, ?_, ?_⟩
  · intro b q hq
    match b with
    | none => simp [get_quotations] at hq
    | some Blob.notArr => simp [get_quotations] at hq
    | some (Blob.arr l) => exact (quotScan_sound hq).2
  · intro l hlen
    have hc : (quotScan now today l).2 = true :=
      (quotScan_cleanup_iff now today l).mpr hlen
    simp [get_quotations, hc]
  · intro l r q hmem hca hp
    have hfresh : r.createdAt.getD 0 > now - thirtyDaysMs := by
      rw [hca]
      have h29 : (29 : Int) * dayMs < thirtyDaysMs := by
        norm_num [dayMs, thirtyDaysMs]
      simpa using sub_lt_sub_left h29 now
    have h1 : q ∈ (get_quotations now today (some (Blob.arr l))).1 :=
      quotScan_keeps hmem hfresh hp
    refine ⟨h1, ?_⟩
    rw [get_quotations_stable]
    exact h1

/-- Claim C5: `loadAll` never signals an error: an absent blob or one
whose content is not a JSON array yields an empty sequence, and an
individual element that fails structural/range validation (or raises) is
silently dropped while every remaining valid record is still returned. -/
theorem claim_C5_load_total (now : Int) (today : String) :
    get_configurations none = [] ∧
    get_configurations (some Blob.notArr) = [] ∧
    (get_quotations now today none).1 = [] ∧
    (get_quotations now today (some Blob.notArr)).1 = [] ∧
    (∀ l1 l2, get_configurations (some (Blob.arr (l1 ++ Elem.bad :: l2))) =
      get_configurations (some (Blob.arr (l1 ++ l2)))) ∧
    (∀ r, parseConfiguration r = none →
      ∀ l1 l2, get_configurations (some (Blob.arr (l1 ++ Elem.obj r :: l2))) =
        get_configurations (some (Blob.arr (l1 ++ l2)))) ∧
    (∀ l1 l2,
      (get_quotations now today (some (Blob.arr (l1 ++ Elem.bad :: l2)))).1 =
        (get_quotations now today (some (Blob.arr (l1 ++ l2)))).1) ∧
    (∀ r, parseQuotation today r = none →
      ∀ l1 l2,
        (get_quotations now today (some (Blob.arr (l1 ++ Elem.obj r :: l2)))).1 =
          (get_quotations now today (some (Blob.arr (l1 ++ l2)))).1) := by
  refine ⟨rfl, rfl, rfl, rfl, ?_, ?_, ?_, ?_⟩
  · intro l1 l2
    simp [get_configurations, List.filterMap_append]
  · intro r hr l1 l2
    simp [get_configurations, List.filterMap_append, hr]
  · intro l1 l2
    show (quotScan now today (l1 ++ Elem.bad :: l2)).1 =
      (quotScan now today (l1 ++ l2)).1
    rw [quotScan_append, quotScan_append]
    congr 1
  · intro r hr l1 l2
    show (quotScan now today (l1 ++ Elem.obj r :: l2)).1 =
      (quotScan now today (l1 ++ l2)).1
    rw [quotScan_append, quotScan_append]
    congr 1
    simp only [quotScan]
    by_cases hfresh : r.createdAt.getD 0 > now - thirtyDaysMs
    · rw [if_pos hfresh, hr]
    · rw [if_neg hfresh]

/-- Claim C2: a configuration create whose (validated) candidate name
equals an existing configuration's name under case-folding fails with
`DuplicateError` leaving the blob - hence the collection and its size -
unchanged; and create preserves the invariant that no two stored
configurations share a case-insensitively equal name. -/
theorem claim_C2_name_unique (now : Int) (r : RawConfiguration) (b : ConfBlob) :
    (∀ c, parseConfiguration (assignConfDefaults now r) = some c →
      (∃ e ∈ get_configurations b, pyLower e.name = pyLower c.name) →
      createConfiguration now r b = (CCreateResult.duplicateError, b))
    ∧ ((get_configurations b).Pairwise
        (fun a c => pyLower a.name ≠ pyLower c.name) →
      (get_configurations (createConfiguration now r b).2).Pairwise
        (fun a c => pyLower a.name ≠ pyLower c.name)) := by
  constructor
  · intro c hp hdup
    obtain ⟨e, he, hname⟩ := hdup
    have hany : (get_configurations b).any
        (fun e => pyLower e.name == pyLower c.name) = true :=
      List.any_eq_true.mpr ⟨e, he, by simp [hname]⟩
    rw [createConfiguration_some hp, if_pos hany]
  · intro hpw
    cases hp : parseConfiguration (assignConfDefaults now r) with
    | none => rw [createConfiguration_none hp]; exact hpw
    | some c =>
      rw [createConfiguration_some hp]
      by_cases hany : (get_configurations b).any
          (fun e => pyLower e.name == pyLower c.name) = true
      · rw [if_pos hany]; exact hpw
      · rw [if_neg hany]
        have hvalid : ∀ x ∈ get_configurations b ++ [c], x.PercValid := by
          intro x hx
          rcases List.mem_append.mp hx with hx1 | hx2
          · exact get_configurations_valid hx1
          · rw [List.mem_singleton.mp hx2]
            exact (parseConfiguration_sound hp).1
        show (get_configurations
          (save_configurations (get_configurations b ++ [c]))).Pairwise _
        rw [get_configurations_save hvalid]
        rw [List.pairwise_append]
        refine ⟨hpw, List.pairwise_singleton _ _, ?_⟩
        intro a ha c2 hc2
        rw [List.mem_singleton.mp hc2]
        intro heq
        exact hany (List.any_eq_true.mpr ⟨a, ha, by simp [heq]⟩)

/-- Claim C4: a quotation create whose payload contains an item with a
negative `rate`, `quantity` or `amount`, or a negative `subtotal`, `gst`,
`transportCharges` or `total`, fails with a validation error - raised by
`Quotation(**data)` before any storage access - so no blob write occurs. -/
theorem claim_C4_create_quotation_rejects (now : Int) (today : String)
    (r : RawQuotation) (b : QuotBlob) (v : Rat) (hv : v < 0)
    (hneg : (∃ its ri, r.items = some its ∧ ri ∈ its ∧
        (ri.rate = some v ∨ ri.quantity = some v ∨ ri.amount = some v))
      ∨ r.subtotal = some v ∨ r.gst = some v ∨
        r.transportCharges = some v ∨ r.total = some v) :
    createQuotation now today r b = (QCreateResult.validationError, b) := by
  cases hp : parseQuotation today (assignQuotDefaults now r) with
  | none => exact createQuotation_none hp
  | some q =>
    exfalso
    obtain ⟨hvalid, _, hsub, hgst, htc, htot, ri2, hitems, hpi⟩ :=
      parseQuotation_sound hp
    obtain ⟨g1, g2, g3, g4, g5⟩ := hvalid
    have hsub2 : r.subtotal = some q.subtotal := hsub
    have hgst2 : r.gst = some q.gst := hgst
    have htc2 : r.transportCharges = some q.transportCharges := htc
    have htot2 : r.total = some q.total := htot
    have hitems2 : r.items = some ri2 := hitems
    rcases hneg with ⟨its, ri, hits, hrimem, hf⟩ | hf | hf | hf | hf
    · rw [hits] at hitems2
      have hri2 : ri2 = its := by simpa using hitems2.symm
      rw [hri2] at hpi
      obtain ⟨it, hit⟩ := parseItems_mem hrimem hpi
      obtain ⟨hitv, hr1, hr2, hr3⟩ := parseItem_sound hit
      obtain ⟨k1, k2, k3⟩ := hitv
      rcases hf with hf | hf | hf
      · rw [hf] at hr1
        exact absurd k1 (not_le.mpr (by rwa [show it.rate = v by simpa using hr1.symm]))
      · rw [hf] at hr2
        exact absurd k2 (not_le.mpr (by rwa [show it.quantity = v by simpa using hr2.symm]))
      · rw [hf] at hr3
        exact absurd k3 (not_le.mpr (by rwa [show it.amount = v by simpa using hr3.symm]))
    · rw [hf] at hsub2
      exact absurd g1 (not_le.mpr
        (by rwa [show q.subtotal = v by simpa using hsub2.symm]))
    · rw [hf] at hgst2
      exact absurd g2 (not_le.mpr
        (by rwa [show q.gst = v by simpa using hgst2.symm]))
    · rw [hf] at htc2
      exact absurd g3 (not_le.mpr
        (by rwa [show q.transportCharges = v by simpa using htc2.symm]))
    · rw [hf] at htot2
      exact absurd g4 (not_le.mpr
        (by rwa [show q.total = v by simpa using htot2.symm]))

/-- Concrete instantiation of C1: on a blob holding a 29-day-old and a
31-day-old quotation, the fresh one is returned (and survives a reload),
the drop triggers a re-save, and every returned record is young enough. -/
theorem claim_C1_retention_witness :
    (wQuot ∈ (get_quotations wNow wToday wBlob).1 ∧
      wNow - thirtyDaysMs < wQuot.createdAt) ∧
    ((get_quotations wNow wToday (some (Blob.arr wElems))).1.length <
        wElems.length ∧
      (get_quotations wNow wToday (some (Blob.arr wElems))).2 =
        save_quotations
          (get_quotations wNow wToday (some (Blob.arr wElems))).1) ∧
    (Elem.obj wQuotRaw ∈ wElems ∧
      wQuotRaw.createdAt = some (wNow - 29 * dayMs) ∧
      parseQuotation wToday wQuotRaw = some wQuot ∧
      wQuot ∈ (get_quotations wNow wToday (some (Blob.arr wElems))).1 ∧
      wQuot ∈ (get_quotations wNow wToday
        (get_quotations wNow wToday (some (Blob.arr wElems))).2).1) := by
  refine ⟨⟨by decide, (claim_C1_retention wNow wToday).1 wBlob wQuot (by decide)⟩,
    ⟨by decide, (claim_C1_retention wNow wToday).2.1 wElems (by decide)⟩,
    by decide, by decide, by decide,
    (claim_C1_retention wNow wToday).2.2 wElems wQuotRaw wQuot
      (by decide) (by decide) (by decide)⟩

/-- Concrete instantiation of C2: creating `STANDARD` over a stored
`Standard` fails with a duplicate error leaving the blob unchanged, and
create preserves distinctness of case-folded names. -/
theorem claim_C2_name_unique_witness :
    (parseConfiguration (assignConfDefaults 7 wConfDupRaw) = some wConfDup ∧
      (∃ e ∈ get_configurations wConfBlob,
        pyLower e.name = pyLower wConfDup.name) ∧
      createConfiguration 7 wConfDupRaw wConfBlob =
        (CCreateResult.duplicateError, wConfBlob)) ∧
    ((get_configurations (none : ConfBlob)).Pairwise
        (fun a c => pyLower a.name ≠ pyLower c.name) ∧
      (get_configurations (createConfiguration 5 wConfRaw none).2).Pairwise
        (fun a c => pyLower a.name ≠ pyLower c.name)) := by
  refine ⟨⟨by decide, ⟨wConf, by decide, by decide⟩,
      (claim_C2_name_unique 7 wConfDupRaw wConfBlob).1 wConfDup (by decide)
        ⟨wConf, by decide, by decide⟩⟩,
    List.Pairwise.nil, (claim_C2_name_unique 5 wConfRaw none).2 List.Pairwise.nil⟩

/-- Concrete instantiation of C4: a quotation payload whose item has rate
-1 fails validation and no blob write occurs. -/
theorem claim_C4_create_quotation_rejects_witness :
    (-1 : Rat) < 0 ∧
    (∃ its ri, wQuotNegRaw.items = some its ∧ ri ∈ its ∧
      (ri.rate = some (-1) ∨ ri.quantity = some (-1) ∨
        ri.amount = some (-1))) ∧
    createQuotation wNow wToday wQuotNegRaw none =
      (QCreateResult.validationError, none) := by
  refine ⟨by decide, ⟨[wItemNegRaw], wItemNegRaw, rfl, by decide, Or.inl rfl⟩,
    claim_C4_create_quotation_rejects wNow wToday wQuotNegRaw none (-1)
      (by decide)
      (Or.inl ⟨[wItemNegRaw], wItemNegRaw, rfl, by decide, Or.inl rfl⟩)⟩

/-- Concrete instantiation of C5: an object that fails validation (here
the empty object) is dropped from the load - for each record type - while
the valid record next to it is still returned. -/
theorem claim_C5_load_total_witness :
    (parseConfiguration ({} : RawConfiguration) = none ∧
      get_configurations (some (Blob.arr
          ([] ++ Elem.obj ({} : RawConfiguration) ::
            [Elem.obj (confToRaw wConf)]))) =
        get_configurations
          (some (Blob.arr ([] ++ [Elem.obj (confToRaw wConf)])))) ∧
    (parseQuotation wToday ({} : RawQuotation) = none ∧
      (get_quotations wNow wToday (some (Blob.arr
          ([] ++ Elem.obj ({} : RawQuotation) :: [Elem.obj wQuotRaw])))).1 =
        (get_quotations wNow wToday
          (some (Blob.arr ([] ++ [Elem.obj wQuotRaw])))).1) := by
  exact ⟨⟨rfl, (claim_C5_load_total 0 wToday).2.2.2.2.2.1 {} rfl []
      [Elem.obj (confToRaw wConf)]⟩,
    ⟨rfl, (claim_C5_load_total wNow wToday).2.2.2.2.2.2.2 {} rfl []
      [Elem.obj wQuotRaw]⟩⟩

/-- Claim C3 (code bug): no configuration create ever succeeds or
persists, for any body whatsoever. The per-route handler
(`api/configurations/create.py`) answers 400 in every case - for a valid
payload the 400 comes from `asyncio.run` raising `ValueError` over the
synchronous `get_configurations`, before the duplicate check, append and
save - and the consolidated `app.py` handler never answers 201: a valid
payload reaches `save_configurations` as a plain `dict` whose missing
`.dict()` makes the save fail (500). In both variants the blob is
untouched, contradicting the claim's (and spec section 4.3 / section 8's)
success-and-retrievable half. -/
theorem claim_C3_create_never_succeeds (now : Int)
    (body : Option RawConfiguration) (b : ConfBlob) :
    api_create_configuration_status now body b = (400, b) ∧
    (app_handle_create_configuration now body b).1 ≠ 201 ∧
    (app_handle_create_configuration now body b).2 = b := by
  have hapi : api_create_configuration_status now body b = (400, b) := by
    cases body with
    | none => rfl
    | some r =>
      show (match parseConfiguration (assignConfDefaults now r) with
        | none => (400, b)
        | some _ => (400, b)) = (400, b)
      cases parseConfiguration (assignConfDefaults now r) <;> rfl
  have happ : app_handle_create_configuration now body b = (400, b) ∨
      app_handle_create_configuration now body b = (500, b) := by
    simp only [app_handle_create_configuration]
    by_cases hmiss : ((assignConfDefaults now (body.getD {})).name.isNone ||
        (assignConfDefaults now (body.getD {})).firstDiscount.isNone ||
        (assignConfDefaults now (body.getD {})).secondDiscount.isNone ||
        (assignConfDefaults now (body.getD {})).margin.isNone) = true
    · rw [if_pos hmiss]
      exact Or.inl rfl
    · rw [if_neg hmiss]
      by_cases hdup : ((get_configurations b).any (fun e =>
          pyLower e.name == pyLower
            ((assignConfDefaults now (body.getD {})).name.getD ""))) = true
      · rw [if_pos hdup]
        exact Or.inl rfl
      · rw [if_neg hdup]
        rw [show app_save_configurations
            ((get_configurations b).map AppConfElem.model ++
              [AppConfElem.rawDict (assignConfDefaults now (body.getD {}))]) b =
            (false, b) from by
          unfold app_save_configurations
          rw [appConfSerialize_rawDict]]
        exact Or.inr rfl
  refine ⟨hapi, ?_, ?_⟩ <;> rcases happ with h | h <;> rw [h] <;> simp

/-- Claim C6: an update whose id matches no loaded record signals
not-found without performing its save, so the blob stays whatever the load
left (unchanged whenever the load triggered no self-heal); when a match
exists, the first matching record is replaced in place - the in-process
list keeps every other position and holds the payload at the match's
index - and `saveAll` (`save_quotations`) is called on the replaced list.
Modelled on `app.py _handle_update_quotation`, the only variant whose
update reaches the collection; the called save persists nothing (it fails
on the plain-`dict` replacement, the handler answers 500 with the blob
unchanged), which the theorem also records. -/
theorem claim_C6_update (now : Int) (today : String) (qid : String)
    (body : Option RawQuotation) (b : QuotBlob) :
    ((∀ q ∈ (get_quotations now today b).1, q.id ≠ qid) →
      app_handle_update_quotation now today qid body b =
        (404, (get_quotations now today b).2) ∧
      ((get_quotations now today b).2 = b →
        (app_handle_update_quotation now today qid body b).2 = b))
    ∧ (∀ l2, replaceFirstApp qid
        { app_get_request_body body with id := some qid }
        (get_quotations now today b).1 = some l2 →
      app_save_quotations l2 (get_quotations now today b).2 =
        (false, (get_quotations now today b).2) ∧
      app_handle_update_quotation now today qid body b =
        (500, (get_quotations now today b).2) ∧
      ∃ i, i < (get_quotations now today b).1.length ∧
        l2 = ((get_quotations now today b).1.map AppElem.model).set i
          (AppElem.rawDict { app_get_request_body body with id := some qid }) ∧
        (∃ q, (get_quotations now today b).1.get? i = some q ∧ q.id = qid) ∧
        ∀ j < i, ∀ q, (get_quotations now today b).1.get? j = some q →
          q.id ≠ qid) := by
  constructor
  · intro hnone
    have hrep : replaceFirstApp qid
        { app_get_request_body body with id := some qid }
        (get_quotations now today b).1 = none :=
      replaceFirstApp_none_iff.mpr hnone
    refine ⟨by rw [app_handle_update_quotation_eq, hrep], ?_⟩
    intro h
    rw [app_handle_update_quotation_eq, hrep]
    exact h
  · intro l2 hrep
    have hsave : app_save_quotations l2 (get_quotations now today b).2 =
        (false, (get_quotations now today b).2) := by
      unfold app_save_quotations
      rw [appSerialize_of_mem (replaceFirstApp_mem_rawDict hrep)]
    refine ⟨hsave, ?_, replaceFirstApp_some hrep⟩
    rw [app_handle_update_quotation_eq, hrep]
    show (if (app_save_quotations l2 (get_quotations now today b).2).1 = true then
        (200, (app_save_quotations l2 (get_quotations now today b).2).2)
      else (500, (app_save_quotations l2 (get_quotations now today b).2).2)) =
      (500, (get_quotations now today b).2)
    rw [hsave]
    rfl

/-- Concrete instantiation of C6: on a blob holding only `q1`, updating id
`zz` answers 404 and leaves the blob alone; updating id `q1` replaces the
record in place with the payload and the called save fails (500). -/
theorem claim_C6_update_witness :
    ((∀ q ∈ (get_quotations wNow wToday wFreshBlob).1, q.id ≠ "zz") ∧
      app_handle_update_quotation wNow wToday "zz" (some wUpdRaw) wFreshBlob =
        (404, (get_quotations wNow wToday wFreshBlob).2) ∧
      (app_handle_update_quotation wNow wToday "zz"
        (some wUpdRaw) wFreshBlob).2 = wFreshBlob) ∧
    (replaceFirstApp "q1"
        { app_get_request_body (some wUpdRaw) with id := some "q1" }
        (get_quotations wNow wToday wFreshBlob).1 =
      some [AppElem.rawDict { wUpdRaw with id := some "q1" }] ∧
      app_handle_update_quotation wNow wToday "q1" (some wUpdRaw) wFreshBlob =
        (500, (get_quotations wNow wToday wFreshBlob).2)) := by
  refine ⟨⟨by decide,
      ((claim_C6_update wNow wToday "zz" (some wUpdRaw) wFreshBlob).1
        (by decide)).1,
      ((claim_C6_update wNow wToday "zz" (some wUpdRaw) wFreshBlob).1
        (by decide)).2 (by decide)⟩,
    by decide,
    (((claim_C6_update wNow wToday "q1" (some wUpdRaw) wFreshBlob).2
      [AppElem.rawDict { wUpdRaw with id := some "q1" }] (by decide)).2).1⟩

end PipeCenter
